import Mathlib

/-!
Shallow embedding of `localstorage-rs` (src/lib.rs): a thin typed wrapper over
the browser's two key-value storages (local and session).

The wrapper code under `src/` is embedded faithfully: `Storage::key`,
`Storage::get`, `Storage::set`, `Storage::remove`, `Storage::clear`,
`Storage::count` and `StorageIntoIter::next`.  Aborts
(`wasm_bindgen::throw_str`, `unwrap_throw`) are modelled by `Except.error`.

The underlying storage object (`web_sys::Storage`) is an external collaborator
the repository does not implement, so its behaviour is modelled from the spec:
an ordered collection of unique-key (key, value) text pairs, kept in
most-recently-set-first order, exactly as the spec's data model (§3), ordering
contract (§4.3) and the repository's own tests describe.
-/

/-- Modelled from the spec: the host storage object (`web_sys::Storage`) is not
under `src/`.  Per §3 the records are unique-key (key, value) text pairs; per
§4.3 and §8 index order is most-recently-set first.  The list is ordered
newest-first. -/
abbrev HostStorage := List (String × String)

/-- Modelled from the spec: host `getItem(key)` returns the stored value for
the key, or nothing when absent. -/
def HostStorage.getItem (s : HostStorage) (k : String) : Option String :=
  (s.find? (fun p => p.1 == k)).map Prod.snd

/-- Modelled from the spec: host `key(index)` returns the key occupying the
given zero-based position in host order, or nothing when out of range. -/
def HostStorage.keyAt (s : HostStorage) (i : Nat) : Option String :=
  (s.get? i).map Prod.fst

/-- Modelled from the spec: host `setItem(key, value)` stores the value under
the key; an existing key is replaced and moves to the most-recently-modified
(front) position (§3, §4.3 newest-first ordering). -/
def HostStorage.setItem (s : HostStorage) (k v : String) : HostStorage :=
  (k, v) :: s.filter (fun p => p.1 != k)

/-- Modelled from the spec: host `removeItem(key)` deletes the entry for the
key; no-op when the key is absent. -/
def HostStorage.removeItem (s : HostStorage) (k : String) : HostStorage :=
  s.filter (fun p => p.1 != k)

/-- Modelled from the spec: host `clear()` deletes every entry. -/
def HostStorage.clearAll (_s : HostStorage) : HostStorage := []

/-- Modelled from the spec: host `length` is the number of entries present. -/
def HostStorage.hostLength (s : HostStorage) : Nat := s.length

/-- The largest value of Rust's `u32`: `u32::max_value()`. -/
def u32Max : Nat := 2 ^ 32 - 1

namespace Storage

/-- `Storage::key` (src/lib.rs lines 78-84): aborts with
"u32 overflow on position" when `idx > u32::max_value() as usize`, otherwise
delegates to the host key-by-index lookup. -/
def key (s : HostStorage) (idx : Nat) : Except String (Option String) :=
  if idx > u32Max then Except.error "u32 overflow on position"
  else Except.ok (HostStorage.keyAt s idx)

/-- `Storage::get` (src/lib.rs lines 86-88): delegates to host `get_item`. -/
def get (s : HostStorage) (k : String) : Option String :=
  HostStorage.getItem s k

/-- `Storage::set` (src/lib.rs lines 90-94): reads the old value with `get`,
then calls host `set_item`; returns the old value. -/
def set (s : HostStorage) (k v : String) : Option String × HostStorage :=
  (get s k, HostStorage.setItem s k v)

/-- `Storage::remove` (src/lib.rs lines 96-100): reads the old value with
`get`, then calls host `remove_item`; returns the old value. -/
def remove (s : HostStorage) (k : String) : Option String × HostStorage :=
  (get s k, HostStorage.removeItem s k)

/-- `Storage::clear` (src/lib.rs lines 102-104): delegates to host `clear`. -/
def clear (s : HostStorage) : HostStorage :=
  HostStorage.clearAll s

/-- `Storage::count` (src/lib.rs lines 107-109): delegates to host `length`. -/
def count (s : HostStorage) : Nat :=
  HostStorage.hostLength s

end Storage

/-- `StorageIntoIter` (src/lib.rs): holds a zero-based position counter and a
live reference to the storage handle.  The live host state is passed to `next`
explicitly, since the handle never caches entries. -/
structure StorageIntoIter where
  position : Nat
deriving DecidableEq

/-- `StorageIntoIter::next` (src/lib.rs lines 131-140), with the two host
interactions inside one call made explicit: `hostK` is the live host state at
the `key(position)` lookup and `hostV` the live host state at the following
`get(key)` lookup (the storage is shared mutable host state, so another
consumer may mutate it between the two calls, §4.3/§5).  The `?` on the key
lookup returns `none` without touching `position`; a missing value hits
`unwrap_throw` and aborts; on success the position advances and the pair is
yielded. -/
def StorageIntoIter.nextOn (it : StorageIntoIter) (hostK hostV : HostStorage) :
    Except String (Option (String × String)) × StorageIntoIter :=
  match Storage.key hostK it.position with
  | Except.error e => (Except.error e, it)
  | Except.ok none => (Except.ok none, it)
  | Except.ok (some k) =>
    match Storage.get hostV k with
    | none => (Except.error "called unwrap_throw on a None value", it)
    | some v => (Except.ok (some (k, v)), { position := it.position + 1 })

/-- `StorageIntoIter::next` when the host state is not mutated between the key
lookup and the value lookup of a single call. -/
def StorageIntoIter.next (it : StorageIntoIter) (host : HostStorage) :
    Except String (Option (String × String)) × StorageIntoIter :=
  it.nextOn host host

/-- Repeated `next` calls against a fixed host state: `nextTimes it host n` is
the outcome of the `n`-th subsequent call after starting from `it`. -/
def StorageIntoIter.nextTimes (it : StorageIntoIter) (host : HostStorage) :
    Nat → Except String (Option (String × String)) × StorageIntoIter
  | 0 => it.next host
  | Nat.succ n => StorageIntoIter.nextTimes (it.next host).2 host n

/-- The two independent storage namespaces (src/lib.rs lines 62-63:
`impl_Storage!(local, ...)` and `impl_Storage!(session, ...)`). -/
inductive StorageName where
  | localStorage
  | sessionStorage
deriving DecidableEq

/-- The hosting global object's two storage instances: wholly separate states
(§3: the two namespaces never share records). -/
structure BrowserState where
  localState : HostStorage
  sessionState : HostStorage
deriving DecidableEq

/-- The storage object the facade's `get_storage()` acquires for a namespace. -/
def BrowserState.read (b : BrowserState) : StorageName → HostStorage
  | StorageName.localStorage => b.localState
  | StorageName.sessionStorage => b.sessionState

/-- Writing back one namespace's storage state, the other untouched. -/
def BrowserState.write (b : BrowserState) : StorageName → HostStorage → BrowserState
  | StorageName.localStorage, s => { b with localState := s }
  | StorageName.sessionStorage, s => { b with sessionState := s }

/-- The facade's `set` for a namespace (macro-generated `local::set` /
`session::set`, src/lib.rs): acquires the namespace's storage and delegates to
`Storage::set`. -/
def nsSet (b : BrowserState) (n : StorageName) (k v : String) :
    Option String × BrowserState :=
  let r := Storage.set (b.read n) k v
  (r.1, b.write n r.2)

/-- The facade's `remove` for a namespace (macro-generated `local::remove` /
`session::remove`, src/lib.rs). -/
def nsRemove (b : BrowserState) (n : StorageName) (k : String) :
    Option String × BrowserState :=
  let r := Storage.remove (b.read n) k
  (r.1, b.write n r.2)

/-- The facade's `get` for a namespace (macro-generated `local::get` /
`session::get`, src/lib.rs). -/
def nsGet (b : BrowserState) (n : StorageName) (k : String) : Option String :=
  Storage.get (b.read n) k

/-- The facade's `count` for a namespace. -/
def nsCount (b : BrowserState) (n : StorageName) : Nat :=
  Storage.count (b.read n)

/-- The facade's `clear` for a namespace (macro-generated `local::clear` /
`session::clear`, src/lib.rs). -/
def nsClear (b : BrowserState) (n : StorageName) : BrowserState :=
  b.write n (Storage.clear (b.read n))

/-! ### Helper lemmas -/

theorem read_write_self (b : BrowserState) (n : StorageName) (h : HostStorage) :
    (b.write n h).read n = h := by
  cases n <;> rfl

theorem read_write_other (b : BrowserState) (n n' : StorageName)
    (h : HostStorage) (hne : n' ≠ n) : (b.write n h).read n' = b.read n' := by
  cases n <;> cases n' <;> first | rfl | exact absurd rfl hne

theorem getItem_setItem_self (s : HostStorage) (k v : String) :
    HostStorage.getItem (HostStorage.setItem s k v) k = some v := by
  simp [HostStorage.getItem, HostStorage.setItem, List.find?]

theorem find?_filter_ne (s : HostStorage) (k q : String) (h : q ≠ k) :
    (s.filter (fun p => p.1 != k)).find? (fun p => p.1 == q) =
      s.find? (fun p => p.1 == q) := by
  induction s with
  | nil => rfl
  | cons a t ih =>
    by_cases hak : a.1 = k
    · have h1 : (a.1 != k) = false := by simp [hak]
      have h2 : (a.1 == q) = false :=
        beq_eq_false_iff_ne.mpr (by rw [hak]; exact fun e => h e.symm)
      simp [List.filter_cons, h1, List.find?_cons, h2, ih]
    · have h1 : (a.1 != k) = true := bne_iff_ne.mpr hak
      by_cases haq : a.1 = q
      · have h2 : (a.1 == q) = true := beq_iff_eq.mpr haq
        simp [List.filter_cons, h1, List.find?_cons, h2]
      · have h2 : (a.1 == q) = false := beq_eq_false_iff_ne.mpr haq
        simp [List.filter_cons, h1, List.find?_cons, h2, ih]

theorem getItem_setItem_ne (s : HostStorage) (k k' v : String) (h : k' ≠ k) :
    HostStorage.getItem (HostStorage.setItem s k v) k' =
      HostStorage.getItem s k' := by
  have hhead : (k == k') = false := beq_eq_false_iff_ne.mpr (fun e => h e.symm)
  simp [HostStorage.getItem, HostStorage.setItem, List.find?_cons, hhead,
    find?_filter_ne s k k' h]

theorem getItem_removeItem_ne (s : HostStorage) (k k' : String) (h : k' ≠ k) :
    HostStorage.getItem (HostStorage.removeItem s k) k' =
      HostStorage.getItem s k' := by
  simp [HostStorage.getItem, HostStorage.removeItem, find?_filter_ne s k k' h]

theorem find?_eq_none_of_getItem_none {s : HostStorage} {k : String}
    (h : HostStorage.getItem s k = none) :
    s.find? (fun p => p.1 == k) = none := by
  unfold HostStorage.getItem at h
  exact Option.map_eq_none'.mp h

theorem filter_ne_of_getItem_none (s : HostStorage) (k : String)
    (h : HostStorage.getItem s k = none) :
    s.filter (fun p => p.1 != k) = s := by
  apply List.filter_eq_self.mpr
  intro a ha
  have hne := List.find?_eq_none.mp (find?_eq_none_of_getItem_none h) a ha
  simpa using hne

theorem setItem_setItem (s : HostStorage) (k v1 v2 : String) :
    HostStorage.setItem (HostStorage.setItem s k v1) k v2 =
      HostStorage.setItem s k v2 := by
  unfold HostStorage.setItem
  have hidem : ((s.filter (fun p => p.1 != k)).filter (fun p => p.1 != k)) =
      s.filter (fun p => p.1 != k) :=
    List.filter_eq_self.mpr (fun a ha => (List.mem_filter.mp ha).2)
  simp [List.filter_cons, hidem]

theorem nextOn_key_error (it : StorageIntoIter) (hostK hostV : HostStorage)
    (e : String) (h : Storage.key hostK it.position = Except.error e) :
    it.nextOn hostK hostV = (Except.error e, it) := by
  simp [StorageIntoIter.nextOn, h]

theorem nextOn_key_none (it : StorageIntoIter) (hostK hostV : HostStorage)
    (h : Storage.key hostK it.position = Except.ok none) :
    it.nextOn hostK hostV = (Except.ok none, it) := by
  simp [StorageIntoIter.nextOn, h]

theorem nextOn_found (it : StorageIntoIter) (hostK hostV : HostStorage)
    (k v : String) (hk : Storage.key hostK it.position = Except.ok (some k))
    (hv : Storage.get hostV k = some v) :
    it.nextOn hostK hostV = (Except.ok (some (k, v)), ⟨it.position + 1⟩) := by
  simp [StorageIntoIter.nextOn, hk, hv]

theorem nextOn_value_missing (it : StorageIntoIter) (hostK hostV : HostStorage)
    (k : String) (hk : Storage.key hostK it.position = Except.ok (some k))
    (hv : Storage.get hostV k = none) :
    it.nextOn hostK hostV =
      (Except.error "called unwrap_throw on a None value", it) := by
  simp [StorageIntoIter.nextOn, hk, hv]

theorem next_eq_none_fix (it : StorageIntoIter) (host : HostStorage)
    (h : (it.next host).1 = Except.ok none) :
    it.next host = (Except.ok none, it) := by
  unfold StorageIntoIter.next at h ⊢
  cases hres : Storage.key host it.position with
  | error e =>
    rw [nextOn_key_error it host host e hres] at h
    exact absurd h (by simp)
  | ok o =>
    cases o with
    | none => exact nextOn_key_none it host host hres
    | some k =>
      cases hg : Storage.get host k with
      | none =>
        rw [nextOn_value_missing it host host k hres hg] at h
        exact absurd h (by simp)
      | some v =>
        rw [nextOn_found it host host k v hres hg] at h
        exact absurd h (by simp)

/-! ### Claim theorems -/

/-- C1: for every namespace N (local or session), every key k and value v,
after calling `set(N, k, v)` a subsequent `get(N, k)` returns v. -/
theorem set_then_get (b : BrowserState) (n : StorageName) (k v : String) :
    nsGet (nsSet b n k v).2 n k = some v := by
  simp [nsGet, nsSet, Storage.get, Storage.set, read_write_self,
    getItem_setItem_self]

/-- C2: after `set(N,k,v1)`, a second call `set(N,k,v2)` returns `some v1`;
in general `set` returns exactly the previous value observed by `get` (so
`none` when the key was new); and `count(N)` is the same after the second
set as before it. -/
theorem set_set_returns_old (b : BrowserState) (n : StorageName)
    (k v1 v2 : String) :
    (nsSet (nsSet b n k v1).2 n k v2).1 = some v1 ∧
    (nsSet b n k v1).1 = nsGet b n k ∧
    nsCount (nsSet (nsSet b n k v1).2 n k v2).2 n =
      nsCount (nsSet b n k v1).2 n := by
  refine ⟨?_, rfl, ?_⟩
  · simp [nsSet, Storage.set, Storage.get, read_write_self, getItem_setItem_self]
  · simp [nsSet, nsCount, Storage.set, Storage.count, read_write_self,
      HostStorage.hostLength, setItem_setItem, HostStorage.setItem]

/-- C6: `remove(N, k)` returns exactly the value previously stored under k
(`none` when k was absent, the stored value when present), and when k is
absent the call leaves `count(N)` unchanged. -/
theorem remove_semantics (b : BrowserState) (n : StorageName) (k : String) :
    (nsRemove b n k).1 = nsGet b n k ∧
    (nsGet b n k = none → nsCount (nsRemove b n k).2 n = nsCount b n) := by
  refine ⟨rfl, fun h => ?_⟩
  simp [nsRemove, nsCount, Storage.remove, Storage.count, read_write_self,
    HostStorage.hostLength, HostStorage.removeItem,
    filter_ne_of_getItem_none _ _ h]

/-- C6 witness: `remove` of the absent key "a" on an empty local storage
returns `none` and leaves the count unchanged. -/
theorem remove_semantics_app :
    (nsRemove ⟨[], []⟩ StorageName.localStorage "a").1 =
      nsGet ⟨[], []⟩ StorageName.localStorage "a" ∧
    nsCount (nsRemove ⟨[], []⟩ StorageName.localStorage "a").2
        StorageName.localStorage =
      nsCount ⟨[], []⟩ StorageName.localStorage :=
  ⟨(remove_semantics ⟨[], []⟩ StorageName.localStorage "a").1,
   (remove_semantics ⟨[], []⟩ StorageName.localStorage "a").2 rfl⟩

/-- C7: after `clear(N)`, `count(N) = 0` and `get(N, k)` returns `none` for
every key k (in particular every key present before the call). -/
theorem clear_semantics (b : BrowserState) (n : StorageName) :
    nsCount (nsClear b n) n = 0 ∧ ∀ k, nsGet (nsClear b n) n k = none := by
  constructor
  · simp [nsClear, nsCount, Storage.clear, Storage.count, read_write_self,
      HostStorage.clearAll, HostStorage.hostLength]
  · intro k
    simp [nsClear, nsGet, Storage.clear, Storage.get, read_write_self,
      HostStorage.clearAll, HostStorage.getItem]

/-- C5: `Storage::key` aborts with the overflow failure exactly when the index
exceeds the 32-bit width (`idx > u32::MAX`); when the index fits in 32 bits
the overflow abort is not taken and the call returns the host key at that
position: some key when the index is in range, none when out of range. -/
theorem key_overflow_guard (s : HostStorage) (idx : Nat) :
    (idx > u32Max →
      Storage.key s idx = Except.error "u32 overflow on position") ∧
    (idx ≤ u32Max →
      Storage.key s idx = Except.ok (HostStorage.keyAt s idx) ∧
      (idx < Storage.count s →
        ∃ k, Storage.key s idx = Except.ok (some k)) ∧
      (Storage.count s ≤ idx → Storage.key s idx = Except.ok none)) := by
  constructor
  · intro h
    simp [Storage.key, h]
  · intro h
    have hnot : ¬ idx > u32Max := not_lt.mpr h
    refine ⟨by simp [Storage.key, hnot], fun hlt => ?_, fun hge => ?_⟩
    · have hlen : idx < s.length := hlt
      refine ⟨(s.get ⟨idx, hlen⟩).1, ?_⟩
      simp [Storage.key, hnot, HostStorage.keyAt, List.get?_eq_getElem?,
        List.getElem?_eq_getElem hlen, List.get_eq_getElem]
    · have hlen : s.length ≤ idx := hge
      simp [Storage.key, hnot, HostStorage.keyAt, List.get?_eq_getElem?,
        List.getElem?_len_le hlen]

/-- C5 witness: index 2^32 aborts with the overflow failure; on a one-entry
storage index 0 returns its key and index 5 returns none. -/
theorem key_overflow_guard_app :
    Storage.key [("a", "1")] (2 ^ 32) =
      Except.error "u32 overflow on position" ∧
    Storage.key [("a", "1")] 0 = Except.ok (some "a") ∧
    Storage.key [("a", "1")] 5 = Except.ok none :=
  ⟨(key_overflow_guard [("a", "1")] (2 ^ 32)).1 (by decide),
   (((key_overflow_guard [("a", "1")] 0).2 (by decide)).1).trans rfl,
   ((key_overflow_guard [("a", "1")] 5).2 (by decide)).2.2 (by decide)⟩

/-- C4: during a `next()` call, when the key lookup at the current position
returns a key but the immediately following value lookup for that key returns
nothing, the call aborts with the `unwrap_throw` failure (leaving the
iterator unchanged) instead of skipping the entry or returning absent. -/
theorem next_value_lookup_abort (it : StorageIntoIter)
    (hostK hostV : HostStorage) (k : String)
    (hk : Storage.key hostK it.position = Except.ok (some k))
    (hv : Storage.get hostV k = none) :
    it.nextOn hostK hostV =
      (Except.error "called unwrap_throw on a None value", it) := by
  simp [StorageIntoIter.nextOn, hk, hv]

/-- C4 witness: at position 0 the key "a" is observed, but its value is gone
at the follow-up lookup; the call aborts. -/
theorem next_value_lookup_abort_app :
    StorageIntoIter.nextOn ⟨0⟩ [("a", "1")] [] =
      (Except.error "called unwrap_throw on a None value",
        (⟨0⟩ : StorageIntoIter)) :=
  next_value_lookup_abort ⟨0⟩ [("a", "1")] [] "a" rfl rfl

/-- C9: when a `next()` call returns absent, the iterator (its position
counter) is left unchanged by that call, so the following call performs the
key lookup at the same index again. -/
theorem next_none_keeps_position (it : StorageIntoIter) (host : HostStorage)
    (h : (it.next host).1 = Except.ok none) :
    (it.next host).2 = it ∧ (it.next host).2.position = it.position := by
  rw [next_eq_none_fix it host h]
  exact ⟨rfl, rfl⟩

/-- C9 witness: a `next()` on the empty storage returns absent and leaves the
iterator at position 0. -/
theorem next_none_keeps_position_app :
    (StorageIntoIter.next ⟨0⟩ []).2 = (⟨0⟩ : StorageIntoIter) ∧
    (StorageIntoIter.next ⟨0⟩ []).2.position =
      (⟨0⟩ : StorageIntoIter).position :=
  next_none_keeps_position ⟨0⟩ [] rfl

/-- C3 counterexample: `next()` on the empty storage returns absent, yet
after an entry is added to the storage, the same iterator's following
`next()` call yields that entry — exhaustion is not permanent when entries
are added between the calls. -/
theorem next_exhaustion_resumes :
    ((StorageIntoIter.next ⟨0⟩ []).1 = Except.ok none) ∧
    (((StorageIntoIter.next ⟨0⟩ []).2.next [("a", "1")]).1 =
      Except.ok (some ("a", "1"))) :=
  ⟨rfl, rfl⟩

/-- C3 amended: once a `next()` call on an iterator returns absent, all
subsequent `next()` calls on that iterator also return absent as long as the
storage is not mutated in between; the end state is not latched, so adding
entries can make the same position valid again and iteration resumes. -/
theorem next_exhaustion_stable (it : StorageIntoIter) (host : HostStorage)
    (h : (it.next host).1 = Except.ok none) :
    ∀ m, (it.nextTimes host m).1 = Except.ok none := by
  have hfix := next_eq_none_fix it host h
  intro m
  induction m with
  | zero => simpa [StorageIntoIter.nextTimes] using h
  | succ m ih =>
    simp only [StorageIntoIter.nextTimes, hfix]
    exact ih

/-- C3 amended witness: on the empty storage the first and each of the next
three `next()` calls return absent. -/
theorem next_exhaustion_stable_app :
    (StorageIntoIter.nextTimes ⟨0⟩ [] 3).1 = Except.ok none :=
  next_exhaustion_stable ⟨0⟩ [] rfl 3

/-- C8: newest-first iteration: in general a `set` places its key at index 0
(the front of the iteration order), and concretely, from the empty storage,
after set("first","a") then set("second","b") the iterator yields
("second","b") before ("first","a"); re-setting the existing key "first"
moves it back to the front of the iteration order. -/
theorem newest_first_order :
    (∀ s k v, Storage.key (Storage.set s k v).2 0 = Except.ok (some k)) ∧
    ((StorageIntoIter.next ⟨0⟩
        (Storage.set (Storage.set [] "first" "a").2 "second" "b").2).1 =
      Except.ok (some ("second", "b"))) ∧
    (((StorageIntoIter.next ⟨0⟩
        (Storage.set (Storage.set [] "first" "a").2 "second" "b").2).2.next
        (Storage.set (Storage.set [] "first" "a").2 "second" "b").2).1 =
      Except.ok (some ("first", "a"))) ∧
    ((StorageIntoIter.next ⟨0⟩
        (Storage.set
          (Storage.set (Storage.set [] "first" "a").2 "second" "b").2
          "first" "c").2).1 =
      Except.ok (some ("first", "c"))) := by
  refine ⟨fun s k v => ?_, rfl, rfl, rfl⟩
  have h0 : ¬ (0 > u32Max) := by decide
  simp [Storage.key, Storage.set, HostStorage.setItem, HostStorage.keyAt, h0]

/-- C10: `set(N, k, v)` and `remove(N, k)` leave `get(N, k')` unchanged for
every key k' distinct from k, and leave the other namespace's entire storage
state untouched. -/
theorem set_remove_frame (b : BrowserState) (n : StorageName)
    (k k' v : String) (hkk : k' ≠ k) :
    (nsGet (nsSet b n k v).2 n k' = nsGet b n k' ∧
     nsGet (nsRemove b n k).2 n k' = nsGet b n k') ∧
    (∀ n', n' ≠ n →
      (nsSet b n k v).2.read n' = b.read n' ∧
      (nsRemove b n k).2.read n' = b.read n') := by
  constructor
  · constructor
    · simp [nsGet, nsSet, Storage.get, Storage.set, read_write_self,
        getItem_setItem_ne _ _ _ _ hkk]
    · simp [nsGet, nsRemove, Storage.get, Storage.remove, read_write_self,
        getItem_removeItem_ne _ _ _ hkk]
  · intro n' hne
    exact ⟨read_write_other _ _ _ _ hne, read_write_other _ _ _ _ hne⟩

/-- C10 witness: on a concrete browser state, setting and removing key "k" in
the local namespace leaves `get` of "j" and the whole session namespace
unchanged. -/
theorem set_remove_frame_app :
    (nsGet (nsSet ⟨[("j", "x")], [("s", "y")]⟩
          StorageName.localStorage "k" "v").2 StorageName.localStorage "j" =
        nsGet ⟨[("j", "x")], [("s", "y")]⟩ StorageName.localStorage "j" ∧
      nsGet (nsRemove ⟨[("j", "x")], [("s", "y")]⟩
          StorageName.localStorage "k").2 StorageName.localStorage "j" =
        nsGet ⟨[("j", "x")], [("s", "y")]⟩ StorageName.localStorage "j") ∧
    ((nsSet ⟨[("j", "x")], [("s", "y")]⟩
          StorageName.localStorage "k" "v").2.read StorageName.sessionStorage =
        BrowserState.read ⟨[("j", "x")], [("s", "y")]⟩
          StorageName.sessionStorage ∧
      (nsRemove ⟨[("j", "x")], [("s", "y")]⟩
          StorageName.localStorage "k").2.read StorageName.sessionStorage =
        BrowserState.read ⟨[("j", "x")], [("s", "y")]⟩
          StorageName.sessionStorage) :=
  ⟨(set_remove_frame ⟨[("j", "x")], [("s", "y")]⟩ StorageName.localStorage
      "k" "j" "v" (by decide)).1,
   (set_remove_frame ⟨[("j", "x")], [("s", "y")]⟩ StorageName.localStorage
      "k" "j" "v" (by decide)).2 StorageName.sessionStorage (by decide)⟩
